import Mathlib

/-!
Verification of the `exists-ref` crate: existence handles (`Exists<T>`),
slice existence handles (`SliceExists<T>`), the bounds-checked indexing
protocol (`SliceExistsIndex`), and the iteration/chunking layer.

The embedding models memory as a total map from element-granular addresses
to values of the element type; a scalar handle is its address
(`src/exists.rs`: a ZST whose reference address is the payload), a slice
handle is a start address plus a length (`src/slice/mod.rs`: a wide
reference carrying length metadata).  Pointer arithmetic `ptr.add(k)`
becomes `+ k` on addresses; a Rust panic becomes `Except.error` carrying
the exact panic message.
-/

namespace ExistsRef

/-- Memory at element granularity: each address holds a value of type `α`.
This models the `T`-typed view the crate accesses through raw pointers. -/
def Mem (α : Type) : Type := Nat → α

/-- Scalar existence handle, from `src/exists.rs` (`pub struct Exists<T>`):
a ZST marker whose reference address is the address accessed.  In the
embedding the handle is identified with that address. -/
structure Exists where
  addr : Nat
deriving DecidableEq, Repr

/-- `Exists::as_ptr` (src/exists.rs): the raw address of the handle. -/
def Exists.as_ptr (h : Exists) : Nat := h.addr

/-- `Exists::get` (src/exists.rs): `unsafe { self.as_ptr().read() }`. -/
def Exists.get (h : Exists) (m : Mem α) : α := m h.addr

/-- `Exists::set` (src/exists.rs): `unsafe { self.as_mut_ptr().write(src) }`. -/
def Exists.set (h : Exists) (v : α) (m : Mem α) : Mem α :=
  fun a => if a = h.addr then v else m a

/-- `Exists::replace` (src/exists.rs): `ptr::replace(self.as_mut_ptr(), val)`,
which reads the old value and writes the new one; returns the old value
together with the updated memory. -/
def Exists.replace (h : Exists) (v : α) (m : Mem α) : α × Mem α :=
  (m h.addr, h.set v m)

/-- `Exists::swap` (src/exists.rs): `ptr::swap(self.as_mut_ptr(), other.as_mut_ptr())`,
i.e. read a temporary from `self`, copy `other`'s value into `self`, then
write the temporary into `other`. -/
def Exists.swap (h other : Exists) (m : Mem α) : Mem α :=
  let tmp := m h.addr
  let m1 := fun a => if a = h.addr then m other.addr else m a
  fun a => if a = other.addr then tmp else m1 a

/-- `Exists::take` (src/exists.rs): `self.replace(Default::default())`. -/
def Exists.take [Inhabited α] (h : Exists) (m : Mem α) : α × Mem α :=
  h.replace default m

/-- `Exists::copy_mut::<N>` (src/exists.rs):
`[self as *mut Self; N].map(|x| unsafe { &mut *x })` — `N` copies of the
same handle (same address). -/
def Exists.copy_mut (h : Exists) (n : Nat) : List Exists :=
  List.replicate n h

/-- Slice existence handle, from `src/slice/mod.rs`
(`pub struct SliceExists<T>([Exists<T>])`): a wide reference carrying a
start address and a length. -/
structure SliceExists where
  start : Nat
  len : Nat
deriving DecidableEq, Repr

/-- `SliceExists::as_ptr` (src/slice/mod.rs): the start address. -/
def SliceExists.as_ptr (s : SliceExists) : Nat := s.start

/-- `SliceExists::is_empty` (src/slice/mod.rs): `self.len() == 0`. -/
def SliceExists.is_empty (s : SliceExists) : Bool := s.len == 0

/-! ### Indexing protocol, `src/slice/index.rs`

Each index kind's six access forms are embedded as separate functions.
Panicking forms return `Except String`, the error carrying the exact
panic message. -/

/-- Panic message of `slice_index_past_end` (src/slice/index.rs):
`"index {} out of range for slice of length {}"`. -/
def slice_index_past_end (index len : Nat) : String :=
  "index " ++ toString index ++ " out of range for slice of length " ++ toString len

/-- Panic message of `slice_index_order_fail` (src/slice/index.rs):
`"slice index starts at {} but ends at {}"`. -/
def slice_index_order_fail (index endIdx : Nat) : String :=
  "slice index starts at " ++ toString index ++ " but ends at " ++ toString endIdx

/-- Panic message of `slice_start_index_len_fail` (src/slice/index.rs):
`"range start index {} out of range for slice of length {}"`. -/
def slice_start_index_len_fail (index len : Nat) : String :=
  "range start index " ++ toString index ++ " out of range for slice of length " ++ toString len

/-- Panic message of `slice_end_index_len_fail` (src/slice/index.rs):
`"range end index {} out of range for slice of length {}"`. -/
def slice_end_index_len_fail (index len : Nat) : String :=
  "range end index " ++ toString index ++ " out of range for slice of length " ++ toString len

/-- `<usize as SliceExistsIndex>::get_unchecked` (src/slice/index.rs):
`Exists::from_ptr(slice.as_ptr().add(self))`. -/
def usizeGetUnchecked (i : Nat) (s : SliceExists) : Exists :=
  ⟨s.as_ptr + i⟩

/-- `<usize as SliceExistsIndex>::get_unchecked_mut` (src/slice/index.rs):
`Exists::from_mut_ptr(slice.as_mut_ptr().add(self))`. -/
def usizeGetUncheckedMut (i : Nat) (s : SliceExists) : Exists :=
  ⟨s.as_ptr + i⟩

/-- `<usize as SliceExistsIndex>::get` (src/slice/index.rs):
`(self < slice.len()).then(|| unsafe { self.get_unchecked(slice) })`. -/
def usizeGet (i : Nat) (s : SliceExists) : Option Exists :=
  if i < s.len then some (usizeGetUnchecked i s) else none

/-- `<usize as SliceExistsIndex>::get_mut` (src/slice/index.rs):
`(self < slice.len()).then(|| unsafe { self.get_unchecked_mut(slice) })`. -/
def usizeGetMut (i : Nat) (s : SliceExists) : Option Exists :=
  if i < s.len then some (usizeGetUncheckedMut i s) else none

/-- `<usize as SliceExistsIndex>::index` (src/slice/index.rs):
`self.get(slice).unwrap_or_else(|| slice_index_past_end(self, slice.len()))`. -/
def usizeIndex (i : Nat) (s : SliceExists) : Except String Exists :=
  match usizeGet i s with
  | some e => .ok e
  | none => .error (slice_index_past_end i s.len)

/-- `<usize as SliceExistsIndex>::index_mut` (src/slice/index.rs):
`let len = slice.len(); self.get_mut(slice).unwrap_or_else(|| slice_index_past_end(self, len))`. -/
def usizeIndexMut (i : Nat) (s : SliceExists) : Except String Exists :=
  match usizeGetMut i s with
  | some e => .ok e
  | none => .error (slice_index_past_end i s.len)

/-- `<Range<usize> as SliceExistsIndex>::get_unchecked` (src/slice/index.rs):
`SliceExists::from_ptr(slice_from_raw_parts(slice.as_ptr().add(self.start), self.end - self.start))`. -/
def rangeGetUnchecked (st en : Nat) (s : SliceExists) : SliceExists :=
  ⟨s.as_ptr + st, en - st⟩

/-- `<Range<usize> as SliceExistsIndex>::get_unchecked_mut` (src/slice/index.rs):
same addresses as `get_unchecked`, through the mutable raw-parts constructor. -/
def rangeGetUncheckedMut (st en : Nat) (s : SliceExists) : SliceExists :=
  ⟨s.as_ptr + st, en - st⟩

/-- `<Range<usize> as SliceExistsIndex>::get` (src/slice/index.rs), verbatim:
`(self.start > self.end || self.end > slice.len()).then(|| unsafe { self.get_unchecked(slice) })`.
Note the guard: `Some` is produced when the disjunction is TRUE. -/
def rangeGet (st en : Nat) (s : SliceExists) : Option SliceExists :=
  if st > en ∨ en > s.len then some (rangeGetUnchecked st en s) else none

/-- `<Range<usize> as SliceExistsIndex>::get_mut` (src/slice/index.rs), verbatim:
`(self.start > self.end || self.end > slice.len()).then(|| unsafe { self.get_unchecked_mut(slice) })`. -/
def rangeGetMut (st en : Nat) (s : SliceExists) : Option SliceExists :=
  if st > en ∨ en > s.len then some (rangeGetUncheckedMut st en s) else none

/-- `<Range<usize> as SliceExistsIndex>::index` (src/slice/index.rs):
panic `slice_index_order_fail` when `start > end`, else panic
`slice_end_index_len_fail` when `end > len`, else `get_unchecked`. -/
def rangeIndex (st en : Nat) (s : SliceExists) : Except String SliceExists :=
  if st > en then .error (slice_index_order_fail st en)
  else if en > s.len then .error (slice_end_index_len_fail en s.len)
  else .ok (rangeGetUnchecked st en s)

/-- `<Range<usize> as SliceExistsIndex>::index_mut` (src/slice/index.rs):
same checks as `index`, then `get_unchecked_mut`. -/
def rangeIndexMut (st en : Nat) (s : SliceExists) : Except String SliceExists :=
  if st > en then .error (slice_index_order_fail st en)
  else if en > s.len then .error (slice_end_index_len_fail en s.len)
  else .ok (rangeGetUncheckedMut st en s)

/-- `<RangeTo<usize> as SliceExistsIndex>::get` (src/slice/index.rs):
`(0..self.end).get(slice)`. -/
def rangeToGet (en : Nat) (s : SliceExists) : Option SliceExists :=
  rangeGet 0 en s

/-- `<RangeTo<usize> as SliceExistsIndex>::index` (src/slice/index.rs):
`(0..self.end).index(slice)`. -/
def rangeToIndex (en : Nat) (s : SliceExists) : Except String SliceExists :=
  rangeIndex 0 en s

/-- `<RangeFrom<usize> as SliceExistsIndex>::get` (src/slice/index.rs):
`(self.start..slice.len()).get(slice)`. -/
def rangeFromGet (st : Nat) (s : SliceExists) : Option SliceExists :=
  rangeGet st s.len s

/-- `<RangeFrom<usize> as SliceExistsIndex>::index` (src/slice/index.rs):
panic `slice_start_index_len_fail` when `start > len`, else `get_unchecked`
on `start..len`. -/
def rangeFromIndex (st : Nat) (s : SliceExists) : Except String SliceExists :=
  if st > s.len then .error (slice_start_index_len_fail st s.len)
  else .ok (rangeGetUnchecked st s.len s)

/-- `SliceExists::split_at` (src/slice/mod.rs):
`(&self[..index], &self[index..])`, where `[..]` is the panicking `Index`
operator; the first indexing panics before the second is evaluated. -/
def SliceExists.split_at (s : SliceExists) (i : Nat) :
    Except String (SliceExists × SliceExists) :=
  match rangeToIndex i s with
  | .error e => .error e
  | .ok a =>
    match rangeFromIndex i s with
    | .error e => .error e
    | .ok b => .ok (a, b)

/-! ### Inclusive-range kinds, `src/slice/index.rs`

`RangeInclusive` is a `todo!()` placeholder in every form;
`RangeToInclusive` delegates every form to `(0..=self.end)`. -/

/-- The panic message of Rust's `todo!()` macro. -/
def todoMsg : String := "not yet implemented"

/-- `<RangeInclusive<usize> as SliceExistsIndex>::get` (src/slice/index.rs): `todo!()`. -/
def rangeInclusiveGet (_st _en : Nat) (_s : SliceExists) :
    Except String (Option SliceExists) :=
  .error todoMsg

/-- `<RangeInclusive<usize> as SliceExistsIndex>::get_mut` (src/slice/index.rs): `todo!()`. -/
def rangeInclusiveGetMut (_st _en : Nat) (_s : SliceExists) :
    Except String (Option SliceExists) :=
  .error todoMsg

/-- `<RangeInclusive<usize> as SliceExistsIndex>::get_unchecked` (src/slice/index.rs): `todo!()`. -/
def rangeInclusiveGetUnchecked (_st _en : Nat) (_s : SliceExists) :
    Except String SliceExists :=
  .error todoMsg

/-- `<RangeInclusive<usize> as SliceExistsIndex>::get_unchecked_mut` (src/slice/index.rs): `todo!()`. -/
def rangeInclusiveGetUncheckedMut (_st _en : Nat) (_s : SliceExists) :
    Except String SliceExists :=
  .error todoMsg

/-- `<RangeInclusive<usize> as SliceExistsIndex>::index` (src/slice/index.rs): `todo!()`. -/
def rangeInclusiveIndex (_st _en : Nat) (_s : SliceExists) :
    Except String SliceExists :=
  .error todoMsg

/-- `<RangeInclusive<usize> as SliceExistsIndex>::index_mut` (src/slice/index.rs): `todo!()`. -/
def rangeInclusiveIndexMut (_st _en : Nat) (_s : SliceExists) :
    Except String SliceExists :=
  .error todoMsg

/-- `<RangeToInclusive<usize> as SliceExistsIndex>::get` (src/slice/index.rs):
`(0..=self.end).get(slice)`. -/
def rangeToInclusiveGet (en : Nat) (s : SliceExists) :
    Except String (Option SliceExists) :=
  rangeInclusiveGet 0 en s

/-- `<RangeToInclusive<usize> as SliceExistsIndex>::get_mut` (src/slice/index.rs):
`(0..=self.end).get_mut(slice)`. -/
def rangeToInclusiveGetMut (en : Nat) (s : SliceExists) :
    Except String (Option SliceExists) :=
  rangeInclusiveGetMut 0 en s

/-- `<RangeToInclusive<usize> as SliceExistsIndex>::get_unchecked` (src/slice/index.rs):
`(0..=self.end).get_unchecked(slice)`. -/
def rangeToInclusiveGetUnchecked (en : Nat) (s : SliceExists) :
    Except String SliceExists :=
  rangeInclusiveGetUnchecked 0 en s

/-- `<RangeToInclusive<usize> as SliceExistsIndex>::get_unchecked_mut` (src/slice/index.rs):
`(0..=self.end).get_unchecked_mut(slice)`. -/
def rangeToInclusiveGetUncheckedMut (en : Nat) (s : SliceExists) :
    Except String SliceExists :=
  rangeInclusiveGetUncheckedMut 0 en s

/-- `<RangeToInclusive<usize> as SliceExistsIndex>::index` (src/slice/index.rs):
`(0..=self.end).index(slice)`. -/
def rangeToInclusiveIndex (en : Nat) (s : SliceExists) :
    Except String SliceExists :=
  rangeInclusiveIndex 0 en s

/-- `<RangeToInclusive<usize> as SliceExistsIndex>::index_mut` (src/slice/index.rs):
`(0..=self.end).index_mut(slice)`. -/
def rangeToInclusiveIndexMut (en : Nat) (s : SliceExists) :
    Except String SliceExists :=
  rangeInclusiveIndexMut 0 en s

/-! ### Iteration and chunking, `src/slice/iter.rs` -/

/-- Iterator state, from `src/slice/iter.rs` (`pub struct Iter<'a, T>`):
a cursor pointer and a one-past-the-end pointer.  `endPtr` embeds the
source field `end` (a Lean keyword). -/
structure Iter where
  ptr : Nat
  endPtr : Nat
deriving DecidableEq, Repr

/-- `Iter::new` (src/slice/iter.rs): cursor at `slice.as_ptr()`, end at
`slice.as_ptr().add(slice.len())`. -/
def Iter.new (s : SliceExists) : Iter :=
  ⟨s.as_ptr, s.as_ptr + s.len⟩

/-- `Iter::next` (src/slice/iter.rs):
`(p < self.end).then(|| { self.ptr = p.add(1); Exists::from_ptr(p) })` —
yield the handle at the cursor and advance by one element stride, or
terminate when the cursor has reached the end pointer. -/
def Iter.next (it : Iter) : Option (Exists × Iter) :=
  if it.ptr < it.endPtr then some (⟨it.ptr⟩, ⟨it.ptr + 1, it.endPtr⟩) else none

/-- Mutable iterator state, from `src/slice/iter.rs` (`pub struct IterMut<'a, T>`). -/
structure IterMut where
  ptr : Nat
  endPtr : Nat
deriving DecidableEq, Repr

/-- `IterMut::new` (src/slice/iter.rs): cursor at `slice.as_mut_ptr()`, end
at `slice.as_mut_ptr().add(slice.len())`. -/
def IterMut.new (s : SliceExists) : IterMut :=
  ⟨s.as_ptr, s.as_ptr + s.len⟩

/-- `IterMut::next` (src/slice/iter.rs): same cursor advance as `Iter::next`,
yielding a mutable scalar handle. -/
def IterMut.next (it : IterMut) : Option (Exists × IterMut) :=
  if it.ptr < it.endPtr then some (⟨it.ptr⟩, ⟨it.ptr + 1, it.endPtr⟩) else none

/-- Chunk iterator state, from `src/slice/iter.rs` (`pub struct Chunks<'a, T>`):
the remaining slice and the chunk size. -/
structure Chunks where
  v : SliceExists
  chunk_size : Nat
deriving DecidableEq, Repr

/-- `Chunks::next` (src/slice/iter.rs): `None` when the remaining slice is
empty; otherwise split the remaining slice at `min(v.len(), chunk_size)`,
yield the front and retain the remainder.  `split_at` uses the panicking
index operator, so a panic there propagates. -/
def Chunks.next (c : Chunks) : Except String (Option (SliceExists × Chunks)) :=
  if c.v.is_empty then
    .ok none
  else
    match c.v.split_at (min c.v.len c.chunk_size) with
    | .error e => .error e
    | .ok (before, after) => .ok (some (before, ⟨after, c.chunk_size⟩))

/-! ### Iterator drivers

Fuel-bounded observation functions: run an iterator for at most `n` steps,
collecting the yielded items and the final state.  These are harness
definitions, not source translations; they realize "the sequence an
iterator yields" for the theorems below. -/

/-- Run `Iter` for at most `fuel` steps; stop early when `next` returns
`none`.  Returns the yielded handles in order and the final state. -/
def Iter.run : Iter → Nat → List Exists × Iter
  | it, 0 => ([], it)
  | it, n + 1 =>
    match it.next with
    | some (x, it') =>
      let r := Iter.run it' n
      (x :: r.1, r.2)
    | none => ([], it)

/-- Run `IterMut` for at most `fuel` steps; stop early when `next` returns
`none`.  Returns the yielded handles in order and the final state. -/
def IterMut.run : IterMut → Nat → List Exists × IterMut
  | it, 0 => ([], it)
  | it, n + 1 =>
    match it.next with
    | some (x, it') =>
      let r := IterMut.run it' n
      (x :: r.1, r.2)
    | none => ([], it)

/-- Run `Chunks` for at most `fuel` steps; stop early when `next` returns
`none` or panics.  Returns the yielded chunks in order and the final state. -/
def Chunks.run : Chunks → Nat → List SliceExists × Chunks
  | c, 0 => ([], c)
  | c, n + 1 =>
    match c.next with
    | .ok (some (chunk, c')) =>
      let r := Chunks.run c' n
      (chunk :: r.1, r.2)
    | _ => ([], c)

/-! ### Helper lemmas -/

/-- `split_at` on a valid position `i ≤ len` succeeds with the two adjacent
sub-handles `[0, i)` and `[i, len)`. -/
theorem split_at_ok (s : SliceExists) (i : Nat) (h : i ≤ s.len) :
    s.split_at i = .ok (⟨s.start, i⟩, ⟨s.start + i, s.len - i⟩) := by
  unfold SliceExists.split_at rangeToIndex rangeFromIndex rangeIndex
    rangeGetUnchecked SliceExists.as_ptr
  have h0 : ¬ (0 > i) := by omega
  have h1 : ¬ (i > s.len) := by omega
  simp [h0, h1]

/-- One step of the chunk iterator on a non-empty remainder: split at
`min (len) (chunk_size)`, yield the front, retain the rest. -/
theorem chunks_next_step (v : SliceExists) (cs : Nat) (hv : v.len ≠ 0) :
    Chunks.next ⟨v, cs⟩ =
      .ok (some (⟨v.start, min v.len cs⟩,
        ⟨⟨v.start + min v.len cs, v.len - min v.len cs⟩, cs⟩)) := by
  unfold Chunks.next SliceExists.is_empty
  simp [hv, split_at_ok v (min v.len cs) (Nat.min_le_left _ _)]

/-- Running `Iter` from cursor `a` with end pointer `a + n` for `n + k` steps
yields the `n` handles at addresses `a, a+1, …, a+n-1` and halts in the
exhausted state, unconditionally in the slack fuel `k`. -/
theorem iter_run_from (n : Nat) : ∀ (a k : Nat),
    Iter.run ⟨a, a + n⟩ (n + k) =
      ((List.range n).map (fun i => ⟨a + i⟩), ⟨a + n, a + n⟩) := by
  induction n with
  | zero =>
    intro a k
    cases k with
    | zero => simp [Iter.run]
    | succ j => simp [Iter.run, Iter.next]
  | succ n ih =>
    intro a k
    have hfuel : n + 1 + k = (n + k) + 1 := by omega
    rw [hfuel]
    have hnext : Iter.next ⟨a, a + (n + 1)⟩ = some (⟨a⟩, ⟨a + 1, a + (n + 1)⟩) := by
      unfold Iter.next
      have hlt : a < a + (n + 1) := by omega
      simp [hlt]
    have harith : a + (n + 1) = (a + 1) + n := by omega
    simp only [Iter.run, hnext]
    rw [harith, ih (a + 1) k]
    simp only [Prod.mk.injEq]
    refine ⟨?_, trivial⟩
    have hfun : ((fun i => (⟨a + i⟩ : Exists)) ∘ Nat.succ) =
        (fun i => (⟨a + 1 + i⟩ : Exists)) := by
      funext i
      simp only [Function.comp_apply]
      congr 1
      omega
    rw [List.range_succ_eq_map, List.map_cons, List.map_map, hfun]
    simp

/-- Mutable-iterator counterpart of `iter_run_from`. -/
theorem iter_mut_run_from (n : Nat) : ∀ (a k : Nat),
    IterMut.run ⟨a, a + n⟩ (n + k) =
      ((List.range n).map (fun i => ⟨a + i⟩), ⟨a + n, a + n⟩) := by
  induction n with
  | zero =>
    intro a k
    cases k with
    | zero => simp [IterMut.run]
    | succ j => simp [IterMut.run, IterMut.next]
  | succ n ih =>
    intro a k
    have hfuel : n + 1 + k = (n + k) + 1 := by omega
    rw [hfuel]
    have hnext : IterMut.next ⟨a, a + (n + 1)⟩ = some (⟨a⟩, ⟨a + 1, a + (n + 1)⟩) := by
      unfold IterMut.next
      have hlt : a < a + (n + 1) := by omega
      simp [hlt]
    have harith : a + (n + 1) = (a + 1) + n := by omega
    simp only [IterMut.run, hnext]
    rw [harith, ih (a + 1) k]
    simp only [Prod.mk.injEq]
    refine ⟨?_, trivial⟩
    have hfun : ((fun i => (⟨a + i⟩ : Exists)) ∘ Nat.succ) =
        (fun i => (⟨a + 1 + i⟩ : Exists)) := by
      funext i
      simp only [Function.comp_apply]
      congr 1
      omega
    rw [List.range_succ_eq_map, List.map_cons, List.map_map, hfun]
    simp

/-! ### Claim theorems -/

/-- C1: the spec claims `get(s..e)`/`get_mut(s..e)` return `Some` exactly when
`s ≤ e ∧ e ≤ L`.  The code's guard is inverted (`(start > end || end > len).then(…)`
is missing a negation), so `Some` is returned exactly when the range is INVALID:
in general `isSome ⟺ e < s ∨ L < e`, and at the failing input — a slice handle
of length 1 with the fully in-bounds range `0..1` — both forms return `none`,
while the out-of-bounds range `0..2` returns `Some`. -/
theorem range_get_guard_inverted :
    (∀ st en sl, (rangeGet st en sl).isSome = true ↔ (en < st ∨ sl.len < en)) ∧
    (∀ st en sl, (rangeGetMut st en sl).isSome = true ↔ (en < st ∨ sl.len < en)) ∧
    rangeGet 0 1 ⟨0, 1⟩ = none ∧ rangeGetMut 0 1 ⟨0, 1⟩ = none ∧
    rangeGet 0 2 ⟨0, 1⟩ = some ⟨0, 2⟩ ∧ rangeGetMut 0 2 ⟨0, 1⟩ = some ⟨0, 2⟩ := by
  refine ⟨?_, ?_, by decide, by decide, by decide, by decide⟩ <;>
    · intro st en sl
      simp only [rangeGet, rangeGetMut]
      split <;> simp_all

/-- C2: the fallible position forms `get(p)` and `get_mut(p)` on a slice handle
of length `L` return `Some` of the scalar handle at address `start + p`
exactly when `p < L`, and `None` exactly when `p ≥ L`. -/
theorem usize_get_totality (p : Nat) (s : SliceExists) :
    (usizeGet p s = some ⟨s.start + p⟩ ↔ p < s.len) ∧
    (usizeGet p s = none ↔ s.len ≤ p) ∧
    (usizeGetMut p s = some ⟨s.start + p⟩ ↔ p < s.len) ∧
    (usizeGetMut p s = none ↔ s.len ≤ p) := by
  refine ⟨?_, ?_, ?_, ?_⟩ <;>
    · simp only [usizeGet, usizeGetMut, usizeGetUnchecked, usizeGetUncheckedMut,
        SliceExists.as_ptr]
      split <;> simp_all

/-- C3: the panicking index operations terminate with exactly the fixed
diagnostic texts: position `p ≥ L` with `"index {p} out of range for slice of
length {L}"`; range `s..e` with `s > e` with `"slice index starts at {s} but
ends at {e}"`; range with `s ≤ e` but `e > L` with `"range end index {e} out of
range for slice of length {L}"` — for both the shared and mutable forms. -/
theorem panic_message_exactness :
    (∀ p s, s.len ≤ p → usizeIndex p s =
      .error ("index " ++ toString p ++ " out of range for slice of length " ++ toString s.len)) ∧
    (∀ p s, s.len ≤ p → usizeIndexMut p s =
      .error ("index " ++ toString p ++ " out of range for slice of length " ++ toString s.len)) ∧
    (∀ st en sl, en < st → rangeIndex st en sl =
      .error ("slice index starts at " ++ toString st ++ " but ends at " ++ toString en)) ∧
    (∀ st en sl, en < st → rangeIndexMut st en sl =
      .error ("slice index starts at " ++ toString st ++ " but ends at " ++ toString en)) ∧
    (∀ st en sl, st ≤ en → sl.len < en → rangeIndex st en sl =
      .error ("range end index " ++ toString en ++ " out of range for slice of length " ++ toString sl.len)) ∧
    (∀ st en sl, st ≤ en → sl.len < en → rangeIndexMut st en sl =
      .error ("range end index " ++ toString en ++ " out of range for slice of length " ++ toString sl.len)) := by
  refine ⟨?_, ?_, ?_, ?_, ?_, ?_⟩
  · intro p s hp
    unfold usizeIndex usizeGet slice_index_past_end
    have : ¬ p < s.len := by omega
    simp [this]
  · intro p s hp
    unfold usizeIndexMut usizeGetMut slice_index_past_end
    have : ¬ p < s.len := by omega
    simp [this]
  · intro st en sl hlt
    unfold rangeIndex slice_index_order_fail
    simp [hlt]
  · intro st en sl hlt
    unfold rangeIndexMut slice_index_order_fail
    simp [hlt]
  · intro st en sl hle hlen
    unfold rangeIndex slice_end_index_len_fail
    have : ¬ st > en := by omega
    simp [this, hlen]
  · intro st en sl hle hlen
    unfold rangeIndexMut slice_end_index_len_fail
    have : ¬ st > en := by omega
    simp [this, hlen]

/-- C3 witness: the three panic shapes at concrete inputs, with the fully
evaluated message strings (shared and mutable forms). -/
theorem panic_message_exactness_witness :
    usizeIndex 2 ⟨0, 2⟩ = .error "index 2 out of range for slice of length 2" ∧
    usizeIndexMut 2 ⟨0, 2⟩ = .error "index 2 out of range for slice of length 2" ∧
    rangeIndex 2 1 ⟨0, 3⟩ = .error "slice index starts at 2 but ends at 1" ∧
    rangeIndexMut 2 1 ⟨0, 3⟩ = .error "slice index starts at 2 but ends at 1" ∧
    rangeIndex 0 5 ⟨0, 3⟩ = .error "range end index 5 out of range for slice of length 3" ∧
    rangeIndexMut 0 5 ⟨0, 3⟩ = .error "range end index 5 out of range for slice of length 3" :=
  ⟨panic_message_exactness.1 2 ⟨0, 2⟩ (by decide),
   panic_message_exactness.2.1 2 ⟨0, 2⟩ (by decide),
   panic_message_exactness.2.2.1 2 1 ⟨0, 3⟩ (by decide),
   panic_message_exactness.2.2.2.1 2 1 ⟨0, 3⟩ (by decide),
   panic_message_exactness.2.2.2.2.1 0 5 ⟨0, 3⟩ (by decide) (by decide),
   panic_message_exactness.2.2.2.2.2 0 5 ⟨0, 3⟩ (by decide) (by decide)⟩

/-- C4: the element iterators (`Iter` and `IterMut`) over a slice handle of
length `L` yield exactly `L` scalar handles — the `i`-th at address
`start + i`, so addresses strictly increase by one element stride — and then
terminate: with any slack fuel `k` beyond `L`, the run yields nothing further
and halts in the exhausted state whose cursor equals the end pointer. -/
theorem iterator_yields_all_in_order (s : SliceExists) (k : Nat) :
    Iter.run (Iter.new s) (s.len + k) =
      ((List.range s.len).map (fun i => ⟨s.start + i⟩),
        ⟨s.start + s.len, s.start + s.len⟩) ∧
    IterMut.run (IterMut.new s) (s.len + k) =
      ((List.range s.len).map (fun i => ⟨s.start + i⟩),
        ⟨s.start + s.len, s.start + s.len⟩) :=
  ⟨iter_run_from s.len s.start k, iter_mut_run_from s.len s.start k⟩

/-- C5: chunking a slice handle of length 7 (any start address `a`) with chunk
size 3 yields exactly the three sub-handles `[a, a+3)`, `[a+3, a+6)`,
`[a+6, a+7)` of lengths 3, 3, 1 in order — pairwise disjoint, adjacent, and
covering the whole slice — and then terminates: the fourth `next` on the empty
remainder returns `none`. -/
theorem chunks_of_seven_by_three (a : Nat) :
    Chunks.run ⟨⟨a, 7⟩, 3⟩ 4 =
      ([⟨a, 3⟩, ⟨a + 3, 3⟩, ⟨a + 6, 1⟩], ⟨⟨a + 7, 0⟩, 3⟩) ∧
    Chunks.next ⟨⟨a + 7, 0⟩, 3⟩ = .ok none := by
  constructor
  · rfl
  · rfl

/-- C6: self-swap identity — swapping a mut handle with another mut handle
denoting the same address leaves memory (in particular the pointed-to value)
unchanged. -/
theorem swap_self_identity (m : Mem α) (h h' : Exists) (hs : h'.addr = h.addr) :
    Exists.swap h h' m = m := by
  funext a
  unfold Exists.swap
  by_cases ha : a = h.addr <;> simp [hs, ha]

/-- C6 witness: self-swap at address 0 on a concrete memory. -/
theorem swap_self_identity_witness :
    (⟨0⟩ : Exists).addr = (⟨0⟩ : Exists).addr ∧
    Exists.swap (⟨0⟩ : Exists) ⟨0⟩ (fun _ => (5 : Int)) = (fun _ => (5 : Int)) :=
  ⟨rfl, swap_self_identity (fun _ => (5 : Int)) ⟨0⟩ ⟨0⟩ rfl⟩

/-- C7: replace law — `h.replace(v')` returns the value held immediately
before the call (`h.get()` on the pre-state), and afterward `h.get()` returns
`v'`. -/
theorem replace_law (m : Mem α) (h : Exists) (v' : α) :
    (h.replace v' m).1 = h.get m ∧
    Exists.get h (h.replace v' m).2 = v' := by
  constructor
  · rfl
  · unfold Exists.replace Exists.get Exists.set
    simp

/-- C8: aliasing visibility — `copy_mut::<2>()` returns two handles that are
both the original handle `h` (hence denote the same address), and a `set v`
performed through the first copy is immediately observable via `get` on the
second copy, which returns `v`. -/
theorem copy_mut_aliasing_visibility (h : Exists) (m : Mem α) (v : α) :
    h.copy_mut 2 = [h, h] ∧
    Exists.get h (Exists.set h v m) = v := by
  constructor
  · rfl
  · unfold Exists.get Exists.set
    simp

/-- C9: every access form of the to-inclusive range kind delegates to the
unimplemented inclusive-range kind and unconditionally panics with the
`todo!()` placeholder message, regardless of the endpoint or the slice; in
particular `get(..=e)` never returns `Some` or `None`. -/
theorem range_to_inclusive_unimplemented (en : Nat) (s : SliceExists) :
    rangeToInclusiveGet en s = .error "not yet implemented" ∧
    rangeToInclusiveGetMut en s = .error "not yet implemented" ∧
    rangeToInclusiveGetUnchecked en s = .error "not yet implemented" ∧
    rangeToInclusiveGetUncheckedMut en s = .error "not yet implemented" ∧
    rangeToInclusiveIndex en s = .error "not yet implemented" ∧
    rangeToInclusiveIndexMut en s = .error "not yet implemented" :=
  ⟨rfl, rfl, rfl, rfl, rfl, rfl⟩

/-- C10: with `chunk_size = 0` on a non-empty slice handle the chunk iterator
never terminates — every run of `n` steps yields `n` empty front sub-handles
(at the slice's start address) and leaves the iterator state exactly as it
began, for every `n`. -/
theorem chunks_zero_size_nonterminating (v : SliceExists) (hv : 0 < v.len) (n : Nat) :
    Chunks.run ⟨v, 0⟩ n = (List.replicate n ⟨v.start, 0⟩, ⟨v, 0⟩) := by
  induction n with
  | zero => simp [Chunks.run]
  | succ n ih =>
    have hstep : Chunks.next ⟨v, 0⟩ = .ok (some (⟨v.start, 0⟩, ⟨v, 0⟩)) := by
      have h0 : v.len ≠ 0 := by omega
      rw [chunks_next_step v 0 h0]
      simp
    simp only [Chunks.run, hstep, ih, List.replicate]

/-- C10 witness: two steps on a length-1 slice with chunk size 0 yield two
empty chunks and return to the starting state. -/
theorem chunks_zero_size_nonterminating_witness :
    0 < (⟨0, 1⟩ : SliceExists).len ∧
    Chunks.run ⟨⟨0, 1⟩, 0⟩ 2 = (List.replicate 2 ⟨0, 0⟩, ⟨⟨0, 1⟩, 0⟩) :=
  ⟨by decide, chunks_zero_size_nonterminating ⟨0, 1⟩ (by decide) 2⟩

end ExistsRef
